import Mathlib

/-!
Verification of the flatpak-rs sandbox subsystem against its specification.

Shallow embedding of the relevant source functions:
- `compute_mapping` from src/sandbox/mod.rs (id-mapping engine)
- `valid_ref` / `Ref` parsing and display from src/ref.rs
- `Manifest.get_environment` from src/manifest.rs and the environment
  composition in `Sandbox::run` from src/sandbox/mod.rs
- `nameat` from src/sandbox/util.rs
- `ArgsFdBuilder.add` from src/sandbox/argsfd.rs
- `DirBuilder.create_dir` / `create_file` from src/sandbox/dirbuilder.rs
-/

namespace FlatpakRs

/-! ## ID-mapping engine: compute_mapping (src/sandbox/mod.rs lines 196-217)

The Rust function takes a `Range<u32>` (start inclusive, end exclusive) and an
optional pinned pair, and returns a flat `Vec<u32>` of id-map triples.  We model
the range by two `Nat` arguments `s` (start) and `f` (end); all arithmetic in
the source stays within u32 bounds whenever `s ≤ f` (the shape produced by
`find_range`), so `Nat` is a faithful model there. -/

def compute_mapping (s f : Nat) (preserve : Option (Nat × Nat)) : List Nat :=
  match preserve with
  | some (preserve_inside, preserve_outside) =>
    -- let before_len = min(subrange.end - subrange.start, preserve_inside)
    let before_len := min (f - s) preserve_inside
    -- if before_len > 0 { emit [covered=0, subrange.start, before_len]; advance }
    let part1 := if before_len > 0 then [0, s, before_len] else []
    let s2 := s + before_len
    -- emit [preserve_inside, preserve_outside, 1]; covered += 1
    let covered := before_len + 1
    -- if !subrange.is_empty() { emit [covered, subrange.start, remaining] }
    let part3 := if s2 < f then [covered, s2, f - s2] else []
    part1 ++ [preserve_inside, preserve_outside, 1] ++ part3
  | none =>
    if s < f then [0, s, f - s] else []

/-- Group a flat id-map vector into `(inside, outside, length)` triples. -/
def toTriples : List Nat → List (Nat × Nat × Nat)
  | a :: b :: c :: rest => (a, b, c) :: toTriples rest
  | _ => []

/-- Sum of the `length` components of an id-map. -/
def sumLens (m : List (Nat × Nat × Nat)) : Nat :=
  (m.map (fun t => t.2.2)).sum

/-- Two triples have disjoint inside intervals. -/
def insideDisj (a b : Nat × Nat × Nat) : Prop :=
  a.1 + a.2.2 ≤ b.1 ∨ b.1 + b.2.2 ≤ a.1

/-- Two triples have disjoint outside intervals. -/
def outsideDisj (a b : Nat × Nat × Nat) : Prop :=
  a.2.1 + a.2.2 ≤ b.2.1 ∨ b.2.1 + b.2.2 ≤ a.2.1

instance : DecidableRel insideDisj :=
  fun a b => by unfold insideDisj; infer_instance

instance : DecidableRel outsideDisj :=
  fun a b => by unfold outsideDisj; infer_instance

/-- The id-map invariants claimed for `compute_mapping s f p`:
the inside intervals exactly tile `[0, covered)` where `covered` is the sum of
the lengths, the inside intervals are pairwise disjoint, a pinned pair appears
as exactly one `(i, o, 1)` triple, and the outside intervals are pairwise
disjoint. -/
def MappingInvariants (s f : Nat) (p : Option (Nat × Nat)) : Prop :=
  (∀ x, x < sumLens (toTriples (compute_mapping s f p)) ↔
      ∃ t ∈ toTriples (compute_mapping s f p), t.1 ≤ x ∧ x < t.1 + t.2.2)
  ∧ List.Pairwise insideDisj (toTriples (compute_mapping s f p))
  ∧ (∀ i o, p = some (i, o) →
      ∃ l₁ l₂, toTriples (compute_mapping s f p) = l₁ ++ (i, o, 1) :: l₂ ∧
        (i, o, 1) ∉ l₁ ∧ (i, o, 1) ∉ l₂)
  ∧ List.Pairwise outsideDisj (toTriples (compute_mapping s f p))

/-! ## References: src/ref.rs

A `Ref` wraps the canonical string.  `valid_ref` is the validation predicate
from src/ref.rs lines 106-111; Rust `str::split('/')` is modelled by
`splitSlash` below (same semantics: splitting `""` yields `[""]`, a trailing
separator yields a trailing empty part). -/

/-- Model of Rust `str::split('/')` on the character list; the accumulator
holds the current chunk in reverse. -/
def splitSlashAux : List Char → List Char → List (List Char)
  | [], acc => [acc.reverse]
  | c :: rest, acc =>
    if c = '/' then acc.reverse :: splitSlashAux rest []
    else splitSlashAux rest (c :: acc)

def splitSlash (s : String) : List String :=
  (splitSlashAux s.data []).map (fun cs => String.mk cs)

/-- The validation predicate `valid_ref` from src/ref.rs lines 106-111. -/
def valid_ref (s : String) : Bool :=
  (splitSlash s).length == 4 &&
  (splitSlash s).all (fun p => !(p == "")) &&
  (match (splitSlash s).head? with
   | some k => k == "runtime" || k == "app"
   | none => false)

structure Ref where
  str : String
deriving DecidableEq

/-- Parsing, `Ref::from_str` (src/ref.rs lines 97-104): validate, then wrap. -/
def refFromStr (s : String) : Except String Ref :=
  if valid_ref s then .ok ⟨s⟩ else .error ("Not a valid ref: " ++ s)

/-- The `Display` impl for `Ref` (src/ref.rs lines 33-37) prints the wrapped
string unchanged. -/
def refDisplay (r : Ref) : String := r.str

/-! ## Manifest (src/manifest.rs) and environment composition (Sandbox::run)

An INI document is modelled as an ordered list of sections, each a name paired
with its ordered key/value list.  `Manifest::section` returns the properties or
an error naming the missing section; `get_environment` asks for the
`Environment` section. -/

abbrev Ini := List (String × List (String × String))

/-- Section lookup, `Manifest::section` (src/manifest.rs lines 18-22). -/
def manifestSection (ini : Ini) (name : String) : Except String (List (String × String)) :=
  match ini.find? (fun sec => sec.1 == name) with
  | some sec => .ok sec.2
  | none => .error ("Manifest is missing section [" ++ name ++ "]")

/-- Accessor `Manifest::get_environment` (src/manifest.rs lines 39-42). -/
def get_environment (ini : Ini) : Except String (List (String × String)) :=
  manifestSection ini "Environment"

/-- Model of `Command::env(key, value)`: set one variable on the child environment. -/
def envSet (base : String → Option String) (key value : String) : String → Option String :=
  fun q => if q = key then some value else base q

/-- Model of `Command::envs(pairs)`: apply each pair in order. -/
def envsApply (base : String → Option String) (pairs : List (String × String)) :
    String → Option String :=
  pairs.foldl (fun acc p => envSet acc p.1 p.2) base

/-- The loop over `self.env` in `Sandbox::run` (src/sandbox/mod.rs lines
604-610): `Some(value)` is `Command::env`, `None` is `Command::env_remove`. -/
def overridesApply (base : String → Option String)
    (ov : List (String × Option String)) : String → Option String :=
  ov.foldl
    (fun acc p => fun q =>
      if q = p.1 then p.2 else acc q)
    base

/-- The PS1 value forced by `Sandbox::run` (src/sandbox/mod.rs line 614). -/
def ps1Value : String := "[📦 $FLATPAK_ID \\W]\\$ "

/-- The effective binding after folding an ordered key/value list over an
environment: the last occurrence of the key wins. -/
def effectiveBinding {β : Type} : List (String × β) → String → Option β
  | [], _ => none
  | p :: rest, k =>
    match effectiveBinding rest k with
    | some v => some v
    | none => if p.1 = k then some p.2 else none

/-- The environment composition in `Sandbox::run` (src/sandbox/mod.rs lines
602-614): the runtime manifest `[Environment]` pairs, then the descriptor env
map, then the three forced variables, all over the inherited environment
`parent`. -/
def composeChildEnv (parent : String → Option String)
    (manifestEnv : List (String × String)) (ov : List (String × Option String))
    (refId : String) : String → Option String :=
  envSet
    (envSet
      (envSet (overridesApply (envsApply parent manifestEnv) ov)
        "PATH" "/app/bin:/usr/bin")
      "FLATPAK_ID" refId)
    "PS1" ps1Value

/-- The environment phase of `Sandbox::run` (src/sandbox/mod.rs line 602
onward): `command.envs(runtime_manifest.get_environment()?)` propagates a
missing `[Environment]` section as an error. -/
def runComposeEnv (runtimeManifest : Ini) (ov : List (String × Option String))
    (refId : String) (parent : String → Option String) :
    Except String (String → Option String) :=
  match get_environment runtimeManifest with
  | .error e => .error e
  | .ok manifestEnv => .ok (composeChildEnv parent manifestEnv ov refId)

/-! ## nameat (src/sandbox/util.rs lines 48-58) -/

/-- The raw value of rustix `CWD` (`AT_FDCWD`). -/
def AT_FDCWD : Int := -100

/-- Model of Rust `name.starts_with('/')`. -/
def startsWithSlash (s : String) : Bool :=
  match s.data with
  | c :: _ => c = '/'
  | [] => false

/-- Model of `nameat` from src/sandbox/util.rs lines 48-58. -/
def nameat (dirfd : Int) (name : String) : String :=
  if dirfd = AT_FDCWD || startsWithSlash name then name
  else if name = "" then "/proc/self/fd/" ++ toString dirfd
  else "/proc/self/fd/" ++ toString dirfd ++ "/" ++ name

/-! ## ArgsFdBuilder::add (src/sandbox/argsfd.rs lines 25-34)

The builder stores arguments directly in a pipe created with
`PipeFlags::CLOEXEC | PipeFlags::NONBLOCK` (src/sandbox/argsfd.rs lines
15-23); nothing reads the pipe while arguments are added, so the pipe state
is the list of bytes written so far.  `writev` on a nonblocking pipe follows
the documented pipe semantics: the default capacity is 64 KiB; a write of at
most `PIPE_BUF` bytes is atomic, succeeding whole when it fits and failing
with `EAGAIN` otherwise; a larger write fails with `EAGAIN` only when the
pipe is full and otherwise transfers exactly the bytes that fit (a partial
write).  The source checks the `ensure!` before writing and discards the
byte count returned by `writev`, so a partial write is reported as
success. -/

def PIPE_CAPACITY : Nat := 65536

def PIPE_BUF : Nat := 4096

def EAGAIN : Nat := 11

/-- Model of `writev` on the nonblocking builder pipe: the new pipe contents
and the transferred byte count, or the errno of the failure. -/
def pipeWritev (pipe : List Nat) (data : List Nat) : Except Nat (List Nat × Nat) :=
  if data.length ≤ PIPE_BUF then
    if pipe.length + data.length ≤ PIPE_CAPACITY then .ok (pipe ++ data, data.length)
    else .error EAGAIN
  else
    if PIPE_CAPACITY ≤ pipe.length then .error EAGAIN
    else .ok (pipe ++ data.take (PIPE_CAPACITY - pipe.length),
      min data.length (PIPE_CAPACITY - pipe.length))

/-- An error returned by `ArgsFdBuilder::add`: the `ensure!` message for a
NUL byte, or the errno of a failed `writev` propagated by the try
operator. -/
inductive AddError where
  | message (s : String)
  | errno (e : Nat)
deriving DecidableEq

/-- Model of `ArgsFdBuilder::add` (src/sandbox/argsfd.rs lines 25-34): check
for NUL bytes before writing anything, then `writev(&[arg, b"\0"])`, whose
returned byte count the source ignores.  The result pairs the error (if any)
with the pipe contents afterwards. -/
def argsfd_add (pipe : List Nat) (arg : List Nat) : Option AddError × List Nat :=
  if arg.all (fun c => !(c == 0)) then
    match pipeWritev pipe (arg ++ [0]) with
    | .ok (pipe2, _count) => (none, pipe2)
    | .error e => (some (.errno e), pipe)
  else
    (some (.message "Cannot add commandline argument to argfd containing nuls"), pipe)

/-! ## DirBuilder (src/sandbox/dirbuilder.rs)

The filesystem below the builder root is modelled as lists of created
directories and files, each carrying its mode.  Paths are component lists
(Rust splits names at `/`).  `createDirRev` walks the reversed component list,
mirroring the recursion of `create_dir`, which splits the name at the last
separator (`rsplit_once`) and recursively creates the parent with
`exist_ok = true`. -/

def ENOENT : Nat := 2
def EEXIST : Nat := 17
def ENOTDIR : Nat := 20

def DIR_PERMISSION : Nat := 0o755
def FILE_PERMISSION : Nat := 0o644

structure FS where
  dirs : List (List String × Nat)
  files : List (List String × Nat)
deriving DecidableEq

def dirExists (fs : FS) (p : List String) : Bool :=
  p.isEmpty || fs.dirs.any (fun e => e.1 == p)

def fileExists (fs : FS) (p : List String) : Bool :=
  fs.files.any (fun e => e.1 == p)

/-- One level of `create_dir` (src/sandbox/dirbuilder.rs lines 45-58) with the
parent directory fd already resolved to `parent`: with `exist_ok`, first try
`open_dir` (returning the fd when the directory exists, `ENOTDIR` when a file
sits there), else `mkdirat` with the given mode and open the result; without
`exist_ok`, `mkdirat` reports `EEXIST` when anything already exists. -/
def createDirStep (fs : FS) (parent : List String) (leaf : String) (mode : Nat)
    (exist_ok : Bool) : Except Nat (FS × List String) :=
  if exist_ok then
    if dirExists fs (parent ++ [leaf]) then .ok (fs, parent ++ [leaf])
    else if fileExists fs (parent ++ [leaf]) then .error ENOTDIR
    else .ok ({ fs with dirs := ((parent ++ [leaf]), mode) :: fs.dirs }, parent ++ [leaf])
  else
    if dirExists fs (parent ++ [leaf]) || fileExists fs (parent ++ [leaf]) then .error EEXIST
    else .ok ({ fs with dirs := ((parent ++ [leaf]), mode) :: fs.dirs }, parent ++ [leaf])

/-- The recursion of `create_dir` (src/sandbox/dirbuilder.rs lines 38-59) on the reversed
component list: the head is the final component, the tail the parent path,
which is created recursively with the same `mode` and `exist_ok = true`. -/
def createDirRev (fs : FS) (rev : List String) (mode : Nat) (exist_ok : Bool) :
    Except Nat (FS × List String) :=
  match rev with
  | [] => .error ENOENT
  | [leaf] => createDirStep fs [] leaf mode exist_ok
  | leaf :: rest =>
    match createDirRev fs rest mode true with
    | .error e => .error e
    | .ok (fs2, parent) => createDirStep fs2 parent leaf mode exist_ok

def create_dir (fs : FS) (comps : List String) (mode : Nat) (exist_ok : Bool) :
    Except Nat (FS × List String) :=
  createDirRev fs comps.reverse mode exist_ok

/-- The `openat(WRONLY|CREATE|EXCL, 0o644)` step of `create_file`
(src/sandbox/dirbuilder.rs lines 68-70). -/
def createFileStep (fs : FS) (parent : List String) (leaf : String) :
    Except Nat (FS × List String) :=
  if dirExists fs (parent ++ [leaf]) || fileExists fs (parent ++ [leaf]) then .error EEXIST
  else .ok ({ fs with files := ((parent ++ [leaf]), FILE_PERMISSION) :: fs.files }, parent ++ [leaf])

/-- The recursion of `create_file` (src/sandbox/dirbuilder.rs lines 61-71) on the reversed
component list: parents are created with `DIR_PERMISSION` and
`exist_ok = true`, then the file itself is created exclusively. -/
def createFileRev (fs : FS) (rev : List String) : Except Nat (FS × List String) :=
  match rev with
  | [] => .error ENOENT
  | [leaf] => createFileStep fs [] leaf
  | leaf :: rest =>
    match createDirRev fs rest DIR_PERMISSION true with
    | .error e => .error e
    | .ok (fs2, parent) => createFileStep fs2 parent leaf

def create_file (fs : FS) (comps : List String) : Except Nat (FS × List String) :=
  createFileRev fs comps.reverse

/-- The pointwise description of the composed child environment: the three
forced variables first, then the descriptor overrides (whose found binding is
applied as-is, so a `none` deletes), then the manifest pairs, then the
inherited environment. -/
def ChildEnvDescription (m : Ini) (parent : String → Option String)
    (manifestEnv : List (String × String)) (ov : List (String × Option String))
    (refId : String) : Prop :=
  runComposeEnv m ov refId parent =
    .ok (composeChildEnv parent manifestEnv ov refId) ∧
  ∀ k, composeChildEnv parent manifestEnv ov refId k =
    if k = "PS1" then some ps1Value
    else if k = "FLATPAK_ID" then some refId
    else if k = "PATH" then some "/app/bin:/usr/bin"
    else
      match effectiveBinding ov k with
      | some v => v
      | none =>
        match effectiveBinding manifestEnv k with
        | some v => some v
        | none => parent k

/-! ## Theorems -/

/-- Normal form of `compute_mapping` with a pin that fits inside the
subordinate range. -/
theorem compute_mapping_some_eq (s f i o : Nat) (h : i ≤ f - s) :
    compute_mapping s f (some (i, o)) =
      (if 0 < i then [0, s, i] else []) ++ [i, o, 1] ++
        (if s + i < f then [i + 1, s + i, f - (s + i)] else []) := by
  simp only [compute_mapping, Nat.min_eq_right h]

/-- C1 (amended): for a well-shaped subordinate range (`s ≤ f`) the id-map
returned by `compute_mapping` tiles `[0, covered)` exactly with its inside
intervals (where `covered` is the sum of the lengths), has pairwise disjoint
inside intervals, contains the pinned pair as exactly one `(i, o, 1)` triple,
and has pairwise disjoint outside intervals — provided the pinned inside id
fits inside the range length and the pinned outside id lies outside the
subordinate range. -/
theorem compute_mapping_invariants (s f : Nat) (p : Option (Nat × Nat))
    (hsf : s ≤ f)
    (hp : p = none ∨ ∃ i o, p = some (i, o) ∧ i ≤ f - s ∧ (o < s ∨ f ≤ o)) :
    MappingInvariants s f p := by
  rcases hp with rfl | ⟨i, o, rfl, hi, ho⟩
  · by_cases h : s < f
    · unfold MappingInvariants
      simp only [compute_mapping, if_pos h, toTriples]
      refine ⟨?_, ?_, ?_, ?_⟩
      · intro x
        simp [sumLens]
        try omega
      · simp
      · intro i o hio
        exact absurd hio (by simp)
      · simp
    · unfold MappingInvariants
      simp only [compute_mapping, if_neg h, toTriples]
      refine ⟨?_, ?_, ?_, ?_⟩
      · intro x
        simp [sumLens]
      · simp
      · intro i o hio
        exact absurd hio (by simp)
      · simp
  · unfold MappingInvariants
    rw [compute_mapping_some_eq s f i o hi]
    by_cases h1 : 0 < i <;> by_cases h2 : s + i < f <;>
      simp only [if_pos, if_neg, h1, h2, List.cons_append, List.nil_append,
        List.append_nil, toTriples]
    · -- leading segment, pin, trailing segment
      refine ⟨?_, ?_, ?_, ?_⟩
      · intro x
        simp [sumLens]
        try omega
      · simp [List.pairwise_cons, insideDisj]
        try omega
      · intro i2 o2 hio
        rw [Option.some.injEq, Prod.mk.injEq] at hio
        obtain ⟨rfl, rfl⟩ := hio
        refine ⟨[(0, s, i)], [(i + 1, s + i, f - (s + i))], rfl, ?_, ?_⟩
        · simp [Prod.ext_iff]
          try omega
        · simp [Prod.ext_iff]
          try omega
      · simp [List.pairwise_cons, outsideDisj]
        try omega
    · -- leading segment, pin, no trailing segment
      refine ⟨?_, ?_, ?_, ?_⟩
      · intro x
        simp [sumLens]
        try omega
      · simp [List.pairwise_cons, insideDisj]
        try omega
      · intro i2 o2 hio
        rw [Option.some.injEq, Prod.mk.injEq] at hio
        obtain ⟨rfl, rfl⟩ := hio
        refine ⟨[(0, s, i)], [], rfl, ?_, ?_⟩
        · simp [Prod.ext_iff]
          try omega
        · simp
      · simp [List.pairwise_cons, outsideDisj]
        try omega
    · -- no leading segment (pin at inside id 0), trailing segment
      refine ⟨?_, ?_, ?_, ?_⟩
      · intro x
        simp [sumLens]
        try omega
      · simp [List.pairwise_cons, insideDisj]
        try omega
      · intro i2 o2 hio
        rw [Option.some.injEq, Prod.mk.injEq] at hio
        obtain ⟨rfl, rfl⟩ := hio
        refine ⟨[], [(i + 1, s + i, f - (s + i))], rfl, ?_, ?_⟩
        · simp
        · simp [Prod.ext_iff]
      · simp [List.pairwise_cons, outsideDisj]
        try omega
    · -- pin only
      refine ⟨?_, ?_, ?_, ?_⟩
      · intro x
        simp [sumLens]
        try omega
      · simp
      · intro i2 o2 hio
        rw [Option.some.injEq, Prod.mk.injEq] at hio
        obtain ⟨rfl, rfl⟩ := hio
        exact ⟨[], [], rfl, by simp, by simp⟩
      · simp

/-- Witness for C1: the invariants hold at the concrete input
`compute_mapping(100..110, Some((3, 1000)))`. -/
theorem compute_mapping_invariants_witness :
    MappingInvariants 100 110 (some (3, 1000)) :=
  compute_mapping_invariants 100 110 (some (3, 1000)) (by decide)
    (Or.inr ⟨3, 1000, rfl, by decide, by decide⟩)

/-- Counterexample for C1 as stated: at `compute_mapping(0..0, Some((5, 7)))`
the single inside interval is `[5, 6)`, so the union of the inside intervals is
not `[0, covered) = [0, 1)`; and at `compute_mapping(100..110, Some((3, 100)))`
the outside intervals `[100, 103)` and `[100, 101)` overlap. -/
theorem compute_mapping_invariants_cex :
    compute_mapping 0 0 (some (5, 7)) = [5, 7, 1] ∧
    sumLens (toTriples (compute_mapping 0 0 (some (5, 7)))) = 1 ∧
    ¬ (∀ x, x < sumLens (toTriples (compute_mapping 0 0 (some (5, 7)))) ↔
        ∃ t ∈ toTriples (compute_mapping 0 0 (some (5, 7))), t.1 ≤ x ∧ x < t.1 + t.2.2) ∧
    compute_mapping 100 110 (some (3, 100)) = [0, 100, 3, 3, 100, 1, 4, 103, 7] ∧
    ¬ List.Pairwise outsideDisj (toTriples (compute_mapping 100 110 (some (3, 100)))) := by
  refine ⟨by decide, by decide, ?_, by decide, ?_⟩
  · intro h
    obtain ⟨t, ht, hle, _⟩ := (h 0).mp (by decide)
    rw [show toTriples (compute_mapping 0 0 (some (5, 7))) = [(5, 7, 1)] from by decide] at ht
    simp at ht
    subst ht
    simp at hle
  · intro h
    rw [show toTriples (compute_mapping 100 110 (some (3, 100))) =
        [(0, 100, 3), (3, 100, 1), (4, 103, 7)] from by decide] at h
    have h1 := (List.pairwise_cons.mp h).1 (3, 100, 1) (by simp)
    simp [outsideDisj] at h1

/-- C2 (amended): over a well-shaped subordinate range the flat vector returned
by `compute_mapping` has 0, 3, 6 or 9 entries, and it has 0 entries exactly
when the range is empty and there is no pin. -/
theorem compute_mapping_length (s f : Nat) (p : Option (Nat × Nat)) (hsf : s ≤ f) :
    ((compute_mapping s f p).length = 0 ∨ (compute_mapping s f p).length = 3 ∨
      (compute_mapping s f p).length = 6 ∨ (compute_mapping s f p).length = 9) ∧
    ((compute_mapping s f p).length = 0 ↔ (f ≤ s ∧ p = none)) := by
  match p with
  | none =>
    by_cases h : s < f
    · simp [compute_mapping, h]
      try omega
    · simp [compute_mapping, h]
      try omega
  | some (i, o) =>
    simp only [compute_mapping]
    by_cases h1 : min (f - s) i > 0 <;> by_cases h2 : s + min (f - s) i < f <;>
      simp [h1, h2]

/-- Witness for C2 (amended) at `compute_mapping(100..110, Some((3, 1000)))`. -/
theorem compute_mapping_length_witness :
    (((compute_mapping 100 110 (some (3, 1000))).length = 0 ∨
      (compute_mapping 100 110 (some (3, 1000))).length = 3 ∨
      (compute_mapping 100 110 (some (3, 1000))).length = 6 ∨
      (compute_mapping 100 110 (some (3, 1000))).length = 9) ∧
     ((compute_mapping 100 110 (some (3, 1000))).length = 0 ↔
       (110 ≤ 100 ∧ (some (3, 1000) : Option (Nat × Nat)) = none))) :=
  compute_mapping_length 100 110 (some (3, 1000)) (by decide)

/-- Counterexample for C2 as stated: `compute_mapping(0..0, None)` returns the
empty vector, whose length is none of 3, 6 or 9. -/
theorem compute_mapping_length_cex :
    compute_mapping 0 0 none = [] ∧
    ¬ ((compute_mapping 0 0 none).length = 3 ∨ (compute_mapping 0 0 none).length = 6 ∨
       (compute_mapping 0 0 none).length = 9) := by decide

/-- C7: `compute_mapping` returns exactly the specified flat vectors on the
three boundary inputs. -/
theorem compute_mapping_boundary :
    compute_mapping 0 0 (some (5, 7)) = [5, 7, 1] ∧
    compute_mapping 100 110 (some (3, 1000)) = [0, 100, 3, 3, 1000, 1, 4, 103, 7] ∧
    compute_mapping 100 110 none = [0, 100, 10] := by decide

/-- The predicate `valid_ref` holds exactly on strings with four non-empty slash-separated
parts whose first part is `app` or `runtime`. -/
theorem valid_ref_iff (s : String) :
    valid_ref s = true ↔
      ((splitSlash s).length = 4 ∧ (∀ p ∈ splitSlash s, p ≠ "") ∧
        ((splitSlash s).head? = some "app" ∨ (splitSlash s).head? = some "runtime")) := by
  unfold valid_ref
  cases hh : (splitSlash s).head? with
  | none =>
    simp [hh]
  | some k =>
    simp only [hh, Bool.and_eq_true, beq_iff_eq, List.all_eq_true, Bool.not_eq_eq_eq_not,
      Bool.or_eq_true, Option.some.injEq]
    constructor
    · rintro ⟨⟨h4, hne⟩, hk⟩
      refine ⟨h4, ?_, ?_⟩
      · intro p hp
        have := hne p hp
        simpa using this
      · tauto
    · rintro ⟨h4, hne, hk⟩
      refine ⟨⟨h4, ?_⟩, ?_⟩
      · intro p hp
        have := hne p hp
        simpa using this
      · tauto

/-- C5: parsing a reference string succeeds exactly when the string has four
non-empty slash-separated parts whose first part is `app` or `runtime`;
`app/` fails with a parse error, and every five-segment input fails with a
parse error. -/
theorem ref_parse_characterization :
    (∀ s, (∃ r, refFromStr s = .ok r) ↔
      ((splitSlash s).length = 4 ∧ (∀ p ∈ splitSlash s, p ≠ "") ∧
        ((splitSlash s).head? = some "app" ∨ (splitSlash s).head? = some "runtime"))) ∧
    (∃ msg, refFromStr "app/" = .error msg) ∧
    (∀ s, (splitSlash s).length = 5 → ∃ msg, refFromStr s = .error msg) := by
  refine ⟨?_, ?_, ?_⟩
  · intro s
    rw [← valid_ref_iff]
    unfold refFromStr
    by_cases h : valid_ref s
    · simp [h]
    · simp [h]
  · refine ⟨"Not a valid ref: " ++ "app/", ?_⟩
    have hv : valid_ref "app/" = false := by decide
    simp [refFromStr, hv]
  · intro s h5
    have hv : valid_ref s = false := by
      simp [valid_ref, h5]
    exact ⟨"Not a valid ref: " ++ s, by simp [refFromStr, hv]⟩

/-- Witness for C5: `app/a/b/c` parses, `a/b/c/d/e` (five segments) fails. -/
theorem ref_parse_characterization_witness :
    (∃ r, refFromStr "app/a/b/c" = .ok r) ∧
    (∃ msg, refFromStr "a/b/c/d/e" = .error msg) :=
  ⟨(ref_parse_characterization.1 "app/a/b/c").mpr ⟨by decide, by decide, by decide⟩,
   ref_parse_characterization.2.2 "a/b/c/d/e" (by decide)⟩

/-- C6: serializing a well-formed reference and parsing the result back yields
the same reference. -/
theorem ref_roundtrip (r : Ref) (h : valid_ref r.str = true) :
    refFromStr (refDisplay r) = .ok r := by
  cases r with
  | mk s => simp [refFromStr, refDisplay, h]

/-- Witness for C6 at a concrete well-formed reference. -/
theorem ref_roundtrip_witness :
    refFromStr (refDisplay ⟨"app/a/b/c"⟩) = .ok ⟨"app/a/b/c"⟩ :=
  ref_roundtrip ⟨"app/a/b/c"⟩ (by decide)

/-- Folding manifest pairs over an environment realizes the last-wins lookup. -/
theorem envsApply_spec (pairs : List (String × String)) :
    ∀ (base : String → Option String) (k : String),
      envsApply base pairs k =
        match effectiveBinding pairs k with
        | some v => some v
        | none => base k := by
  induction pairs with
  | nil => intro base k; simp [envsApply, effectiveBinding]
  | cons p rest ih =>
    intro base k
    show envsApply (envSet base p.1 p.2) rest k = _
    rw [ih]
    simp only [effectiveBinding]
    cases effectiveBinding rest k with
    | some v => simp
    | none =>
      simp only [envSet]
      by_cases h : k = p.1
      · simp [h]
      · simp only [h, if_false]
        rw [if_neg (fun hp => h hp.symm)]

/-- Folding the descriptor env map over an environment applies the last
binding for the key as-is (`none` deletes). -/
theorem overridesApply_spec (ov : List (String × Option String)) :
    ∀ (base : String → Option String) (k : String),
      overridesApply base ov k =
        match effectiveBinding ov k with
        | some v => v
        | none => base k := by
  induction ov with
  | nil => intro base k; simp [overridesApply, effectiveBinding]
  | cons p rest ih =>
    intro base k
    show overridesApply (fun q => if q = p.1 then p.2 else base q) rest k = _
    rw [ih]
    simp only [effectiveBinding]
    cases effectiveBinding rest k with
    | some v => simp
    | none =>
      by_cases h : k = p.1
      · simp [h]
      · simp only [h, if_false]
        rw [if_neg (fun hp => h hp.symm)]

/-- C4: the child environment is the runtime manifest `[Environment]` pairs,
overlaid by the descriptor env map (a `Some` binding sets, a `None` binding
deletes), with `PATH`, `FLATPAK_ID` and `PS1` forced on top of everything
else. -/
theorem run_compose_env (m : Ini) (parent : String → Option String)
    (manifestEnv : List (String × String)) (ov : List (String × Option String))
    (refId : String) (h : get_environment m = .ok manifestEnv) :
    ChildEnvDescription m parent manifestEnv ov refId := by
  constructor
  · unfold runComposeEnv
    rw [h]
  · intro k
    show envSet (envSet (envSet _ "PATH" _) "FLATPAK_ID" _) "PS1" _ k = _
    simp only [envSet]
    by_cases h1 : k = "PS1"
    · simp [h1]
    · by_cases h2 : k = "FLATPAK_ID"
      · simp [h1, h2]
      · by_cases h3 : k = "PATH"
        · simp [h1, h2, h3]
        · simp only [h1, h2, h3, if_neg, if_false]
          rw [overridesApply_spec, envsApply_spec]

/-- Witness for C4 at a concrete manifest, override map and ref id. -/
theorem run_compose_env_witness :
    ChildEnvDescription [("Environment", [("FOO", "bar")])] (fun _ => none)
      [("FOO", "bar")] [("TERM", none)] "org.example.App" :=
  run_compose_env [("Environment", [("FOO", "bar")])] (fun _ => none)
    [("FOO", "bar")] [("TERM", none)] "org.example.App" (by rfl)

/-- C3 (amended): the `[Environment]` section is required at run time — when
the runtime manifest has no such section, `get_environment` returns an error
and the environment phase of `Sandbox::run` propagates it instead of treating
it as an empty set of variables. -/
theorem environment_section_required (m : Ini)
    (h : m.find? (fun sec => sec.1 == "Environment") = none) :
    get_environment m = .error "Manifest is missing section [Environment]" ∧
    ∀ (ov : List (String × Option String)) (refId : String)
      (parent : String → Option String),
      runComposeEnv m ov refId parent =
        .error "Manifest is missing section [Environment]" := by
  have h1 : get_environment m = .error "Manifest is missing section [Environment]" := by
    unfold get_environment manifestSection
    rw [h]
    rfl
  refine ⟨h1, fun ov refId parent => ?_⟩
  unfold runComposeEnv
  rw [h1]

/-- Witness for C3 (amended) at a concrete manifest lacking `[Environment]`. -/
theorem environment_section_required_witness :
    get_environment [("Application", [("command", "/bin/sh")])] =
      .error "Manifest is missing section [Environment]" ∧
    ∀ (ov : List (String × Option String)) (refId : String)
      (parent : String → Option String),
      runComposeEnv [("Application", [("command", "/bin/sh")])] ov refId parent =
        .error "Manifest is missing section [Environment]" :=
  environment_section_required [("Application", [("command", "/bin/sh")])] (by rfl)

/-- Counterexample for C3 as stated: on a manifest that parses but lacks
`[Environment]`, the run procedure fails with an error rather than
contributing an empty environment. -/
theorem environment_section_cex :
    runComposeEnv [("Application", [("command", "/bin/sh")])] [] "org.example.App"
        (fun _ => none) =
      .error "Manifest is missing section [Environment]" := by
  rfl

/-- C8: `nameat` returns the name itself for the cwd sentinel or an absolute
name, the `/proc/self/fd/N` path for an empty name, and `/proc/self/fd/N/name`
otherwise. -/
theorem nameat_characterization (dirfd : Int) (name : String) :
    ((dirfd = AT_FDCWD ∨ startsWithSlash name = true) →
      nameat dirfd name = name) ∧
    (dirfd ≠ AT_FDCWD → startsWithSlash name = false → name = "" →
      nameat dirfd name = "/proc/self/fd/" ++ toString dirfd) ∧
    (dirfd ≠ AT_FDCWD → startsWithSlash name = false → name ≠ "" →
      nameat dirfd name = "/proc/self/fd/" ++ toString dirfd ++ "/" ++ name) := by
  refine ⟨?_, ?_, ?_⟩
  · intro h
    rcases h with h | h <;> simp [nameat, h]
  · intro h1 h2 h3
    subst h3
    simp [nameat, h1, h2]
  · intro h1 h2 h3
    simp [nameat, h1, h2, h3]

/-- Witness for C8 at dirfd 7 with an absolute, an empty and a relative
name. -/
theorem nameat_characterization_witness :
    nameat 7 "/etc/passwd" = "/etc/passwd" ∧
    nameat 7 "" = "/proc/self/fd/7" ∧
    nameat 7 "wayland-0" = "/proc/self/fd/7/wayland-0" :=
  ⟨(nameat_characterization 7 "/etc/passwd").1 (Or.inr (by decide)),
   by
    have := (nameat_characterization 7 "").2.1 (by decide) (by decide) rfl
    simpa using this,
   by
    have := (nameat_characterization 7 "wayland-0").2.2 (by decide) (by decide) (by decide)
    simpa using this⟩

/-- C9 (amended): the argument-fd builder rejects any argument containing a
zero byte without writing to the pipe; an argument free of zero bytes whose
bytes plus the single NUL terminator still fit in the 64 KiB pipe capacity
is appended whole, followed by that terminator. -/
theorem argsfd_add_characterization (pipe arg : List Nat) :
    ((0 ∈ arg) →
      argsfd_add pipe arg =
        (some (.message "Cannot add commandline argument to argfd containing nuls"),
          pipe)) ∧
    ((0 ∉ arg) → pipe.length + (arg.length + 1) ≤ PIPE_CAPACITY →
      argsfd_add pipe arg = (none, pipe ++ arg ++ [0])) := by
  constructor
  · intro h
    have hall : arg.all (fun c => !(c == 0)) = false := by
      cases hall0 : arg.all (fun c => !(c == 0)) with
      | false => rfl
      | true =>
        have := List.all_eq_true.mp hall0 0 h
        simp at this
    simp [argsfd_add, hall]
  · intro h hfit
    have hcap : pipe.length + (arg.length + 1) ≤ 65536 := hfit
    have hall : arg.all (fun c => !(c == 0)) = true := by
      simp [List.all_eq_true]
      intro c hc
      intro h0
      exact h (h0 ▸ hc)
    have hlen : (arg ++ [0]).length = arg.length + 1 := by simp
    unfold argsfd_add
    rw [if_pos hall]
    unfold pipeWritev
    by_cases hb : (arg ++ [0]).length ≤ PIPE_BUF
    · have hfit2 : pipe.length + (arg ++ [0]).length ≤ PIPE_CAPACITY := by
        rw [hlen]
        exact hfit
      rw [if_pos hb, if_pos hfit2]
      simp
    · have hnotfull : ¬(PIPE_CAPACITY ≤ pipe.length) := by
        show ¬(65536 ≤ pipe.length)
        omega
      rw [if_neg hb, if_neg hnotfull]
      have hfree : (arg ++ [0]).length ≤ PIPE_CAPACITY - pipe.length := by
        show (arg ++ [0]).length ≤ 65536 - pipe.length
        rw [hlen]
        omega
      rw [List.take_of_length_le hfree]
      simp

/-- A NUL-free argument whose atomic write (at most `PIPE_BUF` bytes) does
not fit in the remaining pipe capacity is rejected with `EAGAIN` and nothing
is written. -/
theorem argsfd_add_eagain (pipe arg : List Nat) (h : 0 ∉ arg)
    (hsmall : arg.length + 1 ≤ PIPE_BUF)
    (hover : PIPE_CAPACITY < pipe.length + (arg.length + 1)) :
    argsfd_add pipe arg = (some (.errno EAGAIN), pipe) := by
  have hover2 : 65536 < pipe.length + (arg.length + 1) := hover
  have hall : arg.all (fun c => !(c == 0)) = true := by
    simp [List.all_eq_true]
    intro c hc
    intro h0
    exact h (h0 ▸ hc)
  have hlen : (arg ++ [0]).length = arg.length + 1 := by simp
  have hb : (arg ++ [0]).length ≤ PIPE_BUF := by
    rw [hlen]
    exact hsmall
  have hfull : ¬(pipe.length + (arg ++ [0]).length ≤ PIPE_CAPACITY) := by
    show ¬(pipe.length + (arg ++ [0]).length ≤ 65536)
    rw [hlen]
    omega
  unfold argsfd_add
  rw [if_pos hall]
  unfold pipeWritev
  rw [if_pos hb, if_neg hfull]

/-- Counterexample for C9 as stated: on a full pipe (the 64 KiB capacity
already written), adding the NUL-free argument `[97]` does not append the
argument and terminator — the nonblocking `writev` fails with `EAGAIN` and
the pipe contents are unchanged. -/
theorem argsfd_add_cex :
    (0 ∉ [97]) ∧
    argsfd_add (List.replicate 65536 1) [97] =
      (some (.errno EAGAIN), List.replicate 65536 1) :=
  ⟨by decide,
   argsfd_add_eagain (List.replicate 65536 1) [97] (by decide) (by decide)
     (by
       rw [List.length_replicate]
       show (65536 : Nat) < 65536 + (1 + 1)
       omega)⟩

/-- Witness for C9 (amended): a NUL-containing argument is rejected with the
pipe untouched; a NUL-free argument that fits is appended NUL-terminated. -/
theorem argsfd_add_characterization_witness :
    argsfd_add [104, 105, 0] [97, 0, 98] =
      (some (.message "Cannot add commandline argument to argfd containing nuls"),
        [104, 105, 0]) ∧
    argsfd_add [104, 105, 0] [97, 98] = (none, [104, 105, 0] ++ [97, 98] ++ [0]) :=
  ⟨(argsfd_add_characterization [104, 105, 0] [97, 0, 98]).1 (by decide),
   (argsfd_add_characterization [104, 105, 0] [97, 98]).2 (by decide) (by decide)⟩

/-- Every directory entry present after a successful `createDirStep` either was
already present or carries the step mode. -/
theorem createDirStep_dirs (fs : FS) (parent : List String) (leaf : String)
    (mode : Nat) (exist_ok : Bool) (fs2 : FS) (fd : List String)
    (h : createDirStep fs parent leaf mode exist_ok = .ok (fs2, fd)) :
    ∀ e ∈ fs2.dirs, e ∈ fs.dirs ∨ e.2 = mode := by
  unfold createDirStep at h
  repeat' split at h
  any_goals cases h
  all_goals intro e he
  all_goals try simp at he
  all_goals
    first
      | exact Or.inl he
      | (rcases he with rfl | he
         · exact Or.inr rfl
         · exact Or.inl he)

/-- Mode propagation through the recursion of `create_dir`: every new
directory entry carries the `mode` argument. -/
theorem createDirRev_dirs (rev : List String) :
    ∀ (fs : FS) (mode : Nat) (exist_ok : Bool) (fs2 : FS) (fd : List String),
      createDirRev fs rev mode exist_ok = .ok (fs2, fd) →
      ∀ e ∈ fs2.dirs, e ∈ fs.dirs ∨ e.2 = mode := by
  induction rev with
  | nil =>
    intro fs mode exist_ok fs2 fd h
    simp [createDirRev] at h
  | cons leaf rest ih =>
    intro fs mode exist_ok fs2 fd h
    cases rest with
    | nil =>
      simp only [createDirRev] at h
      exact createDirStep_dirs _ _ _ _ _ _ _ h
    | cons r rs =>
      simp only [createDirRev] at h
      cases hrec : createDirRev fs (r :: rs) mode true with
      | error e =>
        rw [hrec] at h
        cases h
      | ok pr =>
        obtain ⟨fs3, parent⟩ := pr
        rw [hrec] at h
        intro e he
        rcases createDirStep_dirs _ _ _ _ _ _ _ h e he with he2 | hm
        · exact ih fs mode true fs3 parent hrec e he2
        · exact Or.inr hm

/-- The file-creation step never touches the directory list. -/
theorem createFileStep_dirs (fs : FS) (parent : List String) (leaf : String)
    (fs2 : FS) (fd : List String)
    (h : createFileStep fs parent leaf = .ok (fs2, fd)) :
    fs2.dirs = fs.dirs := by
  unfold createFileStep at h
  split at h
  · cases h
  · simp only [Except.ok.injEq, Prod.mk.injEq] at h
    obtain ⟨h1, h2⟩ := h
    subst h1
    rfl

/-- When every proper ancestor of the target already exists, the recursive
parent pass of `create_dir` succeeds without changing anything. -/
theorem createDirRev_noop (rev : List String) :
    ∀ (fs : FS) (mode : Nat), rev ≠ [] →
      (∀ j, j < rev.length → dirExists fs ((rev.drop j).reverse) = true) →
      createDirRev fs rev mode true = .ok (fs, rev.reverse) := by
  induction rev with
  | nil =>
    intro fs mode h
    exact absurd rfl h
  | cons leaf rest ih =>
    intro fs mode _ hex
    cases rest with
    | nil =>
      have h0 := hex 0 (by simp)
      simp only [List.drop_zero, List.reverse_cons, List.reverse_nil,
        List.nil_append] at h0
      simp only [createDirRev, createDirStep, List.nil_append]
      simp [h0]
    | cons r rs =>
      have hrec := ih fs mode (by simp) (fun j hj => by
        have := hex (j + 1) (by simpa using Nat.succ_lt_succ hj)
        simpa using this)
      simp only [createDirRev]
      rw [hrec]
      have h0 := hex 0 (by simp)
      simp at h0
      simp only [createDirStep]
      simp [h0]

/-- C10: `create_dir` creates every missing directory — intermediate parents
included — with its `mode` argument; intermediate parents that already exist
are accepted even when `exist_ok` is false for the final component; and
`create_file` creates missing parent directories with mode `0o755`
(`DIR_PERMISSION`). -/
theorem dirbuilder_parent_modes :
    (∀ (fs : FS) (comps : List String) (mode : Nat) (exist_ok : Bool)
       (fs2 : FS) (fd : List String),
      create_dir fs comps mode exist_ok = .ok (fs2, fd) →
      ∀ e ∈ fs2.dirs, e ∈ fs.dirs ∨ e.2 = mode) ∧
    (∀ (fs : FS) (parent : List String) (leaf : String) (mode : Nat),
      parent ≠ [] →
      (∀ k, 0 < k → k ≤ parent.length → dirExists fs (parent.take k) = true) →
      dirExists fs (parent ++ [leaf]) = false →
      fileExists fs (parent ++ [leaf]) = false →
      create_dir fs (parent ++ [leaf]) mode false =
        .ok ({ fs with dirs := ((parent ++ [leaf]), mode) :: fs.dirs },
          parent ++ [leaf])) ∧
    (∀ (fs : FS) (comps : List String) (fs2 : FS) (fd : List String),
      create_file fs comps = .ok (fs2, fd) →
      ∀ e ∈ fs2.dirs, e ∈ fs.dirs ∨ e.2 = DIR_PERMISSION) := by
  refine ⟨?_, ?_, ?_⟩
  · intro fs comps mode exist_ok fs2 fd h
    exact createDirRev_dirs comps.reverse fs mode exist_ok fs2 fd h
  · intro fs parent leaf mode hne hex hd hf
    unfold create_dir
    have hrev : (parent ++ [leaf]).reverse = leaf :: parent.reverse := by simp
    rw [hrev]
    obtain ⟨r, rs, hpr⟩ : ∃ r rs, parent.reverse = r :: rs := by
      cases hp : parent.reverse with
      | nil => exact absurd (by simpa using congrArg List.reverse hp) hne
      | cons r rs => exact ⟨r, rs, rfl⟩
    have hnoop := createDirRev_noop parent.reverse fs mode
      (by simp [hpr]) (fun j hj => by
        have hkey : ((parent.reverse.drop j).reverse) =
            parent.take (parent.length - j) := by
          rw [← List.rdrop_eq_reverse_drop_reverse, List.rdrop]
        rw [hkey]
        have hjlen : j < parent.length := by simpa using hj
        exact hex (parent.length - j) (by omega) (by omega))
    rw [hpr] at hnoop
    rw [hpr]
    simp only [createDirRev]
    rw [hnoop]
    have hparent : (r :: rs).reverse = parent := by
      rw [← hpr, List.reverse_reverse]
    rw [hparent]
    simp only [createDirStep]
    simp [hd, hf]
  · intro fs comps fs2 fd h
    unfold create_file at h
    generalize hcr : comps.reverse = rev at h
    cases rev with
    | nil =>
      simp [createFileRev] at h
    | cons leaf rest =>
      cases rest with
      | nil =>
        simp only [createFileRev] at h
        have := createFileStep_dirs _ _ _ _ _ h
        intro e he
        rw [this] at he
        exact Or.inl he
      | cons r rs =>
        simp only [createFileRev] at h
        cases hrec : createDirRev fs (r :: rs) DIR_PERMISSION true with
        | error e =>
          rw [hrec] at h
          cases h
        | ok pr =>
          obtain ⟨fs3, parent⟩ := pr
          rw [hrec] at h
          have hstep := createFileStep_dirs _ _ _ _ _ h
          intro e he
          rw [hstep] at he
          exact createDirRev_dirs (r :: rs) fs DIR_PERMISSION true fs3 parent hrec e he

/-- Witness for C10: creating `a/b` with mode `0o700` over a filesystem where
`a` already exists succeeds with `exist_ok = false`, creating only `a/b` with
mode `0o700` (not the 0o755 default). -/
theorem dirbuilder_parent_modes_witness :
    create_dir ⟨[(["a"], 0o700)], []⟩ (["a"] ++ ["b"]) 0o700 false =
      .ok (⟨[(["a", "b"], 0o700), (["a"], 0o700)], []⟩, ["a"] ++ ["b"]) :=
  dirbuilder_parent_modes.2.1 ⟨[(["a"], 0o700)], []⟩ ["a"] "b" 0o700
    (by decide)
    (fun k h1 h2 => by
      have h2a : k ≤ 1 := by simpa using h2
      have hk : k = 1 := by omega
      subst hk
      decide)
    (by decide) (by decide)

end FlatpakRs
